import Mathlib

/-!
Shallow embedding of `src/compound.rs` (a Gear-style lending contract).

Conventions of the embedding:
* `u128` values are `Nat` together with the explicit bound `U128 = 2^128`;
  Rust's unchecked `+` / `-` on `u128` are modelled by `u128_add` / `u128_sub`,
  which report `CErr.UncheckedOverflow` when the mathematical result leaves the
  `u128` range (the overflow panic of a checked build; in a wrapping build the
  value would silently wrap, either way the operation is not total).
* `ActorId` is modelled as `Nat`; panics are modelled as `Except.error` values,
  one error constructor per panic site, following the error names of the spec.
* The external `transfer_tokens` collaborator is not part of `src/`; per the
  spec a non-success resolution aborts the whole action, so each handler takes
  one `Bool` oracle per transfer call it performs and fails with
  `CErr.TransferFailed` when the corresponding transfer does not succeed.
* The `Assets` record and its methods, and the `asserts` / `safe_mul` /
  `safe_div` helpers, are not in `src/` either and are modelled from the spec
  (each such definition carries a `Modelled from the spec:` doc comment).
  The interest-accrual formula is explicitly left open by the spec (§9), so
  the model fixes the elapsed time at zero, where the accrual correction
  vanishes and the effective balances equal the stored principals.
-/

/-- The number of values of Rust's `u128`: arithmetic results must stay below
this bound. -/
def U128 : Nat := 2 ^ 128

/-- Error kinds, one per panic / failure site of the source, named as in the
spec (§7).  `UncheckedOverflow` stands for the overflow panic of a plain
(unchecked) `u128` `+` / `-`, as opposed to the checked helpers' explicit
`ArithmeticOverflow` / `DivisionError`. -/
inductive CErr where
  | InvalidAmount
  | NoPosition
  | InsufficientCollateral
  | RefundExceedsDebt
  | WithdrawExceedsBalance
  | ArithmeticOverflow
  | DivisionError
  | UncheckedOverflow
  | TransferFailed
deriving DecidableEq

/-- Modelled from the spec: `safe_mul` is the overflow-checked `u128`
multiplication used by `count_ctokens` and the collateral computations; it
fails with `ArithmeticOverflow` instead of silently wrapping. -/
def safe_mul (a b : Nat) : Except CErr Nat :=
  if a * b < U128 then .ok (a * b) else .error .ArithmeticOverflow

/-- Modelled from the spec: `safe_div` is the checked `u128` division used by
`count_tokens`; it fails with `DivisionError` on a zero divisor and otherwise
performs the explicit truncating division. -/
def safe_div (a b : Nat) : Except CErr Nat :=
  if b = 0 then .error .DivisionError else .ok (a / b)

/-- Plain (unchecked) `u128` addition, as written in
`borrow_tokens`: `assets.borrowed_amount + amount`. -/
def u128_add (a b : Nat) : Except CErr Nat :=
  if a + b < U128 then .ok (a + b) else .error .UncheckedOverflow

/-- Plain (unchecked) `u128` subtraction, as written in
`withdraw_tokens`: `assets.get_lent_amount() - amount`. -/
def u128_sub (a b : Nat) : Except CErr Nat :=
  if b ≤ a then .ok (a - b) else .error .UncheckedOverflow

/-- The per-account `Assets` record (the spec's `Position`): lent and borrowed
principals (`u128`) with their signed (`i128`) accrual offsets.  Modelled from
the spec (§3); the offsets are kept as unbounded `Int` since no observed
operation nor claim depends on the `i128` width. -/
structure Assets where
  lent_amount : Nat
  lend_offset : Int
  borrowed_amount : Nat
  borrow_offset : Int
deriving DecidableEq

/-- Modelled from the spec: `Assets::new(ctokens_amount, interest_rate)`
creates the Position on the first lend, with `lentAmount = ctokensAmount`,
no debt, and the lend offset recentered to the fresh principal. -/
def Assets.new (ctokens_amount : Nat) (_interest_rate : Nat) : Assets :=
  { lent_amount := ctokens_amount
    lend_offset := (ctokens_amount : Int)
    borrowed_amount := 0
    borrow_offset := 0 }

/-- Modelled from the spec: `add_lend` adds the freshly minted ctokens to the
lent principal and increments the lend offset (`u128` principal addition, so
an out-of-range sum is the overflow panic). -/
def Assets.add_lend (a : Assets) (ctokens_amount : Nat) (_interest_rate : Nat) :
    Except CErr Assets :=
  match u128_add a.lent_amount ctokens_amount with
  | .error e => .error e
  | .ok l =>
    .ok { a with lent_amount := l, lend_offset := a.lend_offset + (ctokens_amount : Int) }

/-- Modelled from the spec: `add_borrow` adds the borrowed amount to the debt
principal and increments the borrow offset. -/
def Assets.add_borrow (a : Assets) (amount : Nat) (_borrow_rate : Nat) :
    Except CErr Assets :=
  match u128_add a.borrowed_amount amount with
  | .error e => .error e
  | .ok b =>
    .ok { a with borrowed_amount := b, borrow_offset := a.borrow_offset + (amount : Int) }

/-- Modelled from the spec: the accrual-corrected lent balance.  The accrual
formula is left open by the spec (§9); at zero elapsed time the correction
vanishes, so the effective balance is the stored principal. -/
def Assets.get_lent_amount (a : Assets) : Nat := a.lent_amount

/-- Modelled from the spec: the accrual-corrected borrowed balance, at zero
elapsed time (see `Assets.get_lent_amount`). -/
def Assets.get_borrow_amount (a : Assets) : Nat := a.borrowed_amount

/-- `BTreeMap` lookup (`get_mut`), over an association list with unique keys. -/
def lookupA : List (Nat × Assets) → Nat → Option Assets
  | [], _ => none
  | (k, v) :: rest, key => if key = k then some v else lookupA rest key

/-- `BTreeMap` `entry(..).and_modify(..).or_insert_with(..)`: replace the value
at the key, inserting it when absent. -/
def updateA : List (Nat × Assets) → Nat → Assets → List (Nat × Assets)
  | [], key, v => [(key, v)]
  | (k, w) :: rest, key, v =>
    if key = k then (k, v) :: rest else (k, w) :: updateA rest key v

/-- The `Compound` contract state (`ActorId`s and the `u64` timestamp are
`Nat`). -/
structure Compound where
  token_address : Nat
  ctoken_address : Nat
  interest_rate : Nat
  collateral_factor : Nat
  borrow_rate : Nat
  ctoken_rate : Nat
  user_assets : List (Nat × Assets)
  init_time : Nat
deriving DecidableEq

/-- `Compound::count_ctokens`: base tokens to ctokens, `safe_mul` by the
rate. -/
def Compound.count_ctokens (tokens_amount ctoken_rate : Nat) : Except CErr Nat :=
  safe_mul tokens_amount ctoken_rate

/-- `Compound::count_tokens`: ctokens to base tokens, `safe_div` by the
rate. -/
def Compound.count_tokens (ctokens_amount ctoken_rate : Nat) : Except CErr Nat :=
  safe_div ctokens_amount ctoken_rate

/-- `Compound::lend_tokens` (src lines 17–52): positivity check, transfer of
the base asset in (`t1`), mint `count_ctokens`, transfer the ctokens out
(`t2`), then update the caller's Position. -/
def Compound.lend_tokens (self : Compound) (msg_source amount : Nat)
    (t1 t2 : Bool) : Except CErr Compound :=
  if amount = 0 then .error .InvalidAmount
  else if t1 = false then .error .TransferFailed
  else
    match Compound.count_ctokens amount self.ctoken_rate with
    | .error e => .error e
    | .ok ctokens_amount =>
      if t2 = false then .error .TransferFailed
      else
        match lookupA self.user_assets msg_source with
        | some assets =>
          match assets.add_lend ctokens_amount self.interest_rate with
          | .error e => .error e
          | .ok a' =>
            .ok { self with user_assets := updateA self.user_assets msg_source a' }
        | none =>
          .ok { self with
                user_assets := updateA self.user_assets msg_source
                  (Assets.new ctokens_amount self.interest_rate) }

/-- `Compound::borrow_tokens` (src lines 54–94): positivity check, Position
lookup, the collateral gate
`count_tokens(safe_mul(lent_amount, collateral_factor), ctoken_rate) <
borrowed_amount + amount` (the right-hand sum is plain `u128` addition),
then the transfer out (`t1`) and `add_borrow`. -/
def Compound.borrow_tokens (self : Compound) (msg_source amount : Nat)
    (t1 : Bool) : Except CErr Compound :=
  if amount = 0 then .error .InvalidAmount
  else
    match lookupA self.user_assets msg_source with
    | none => .error .NoPosition
    | some assets =>
      match safe_mul assets.lent_amount self.collateral_factor with
      | .error e => .error e
      | .ok collat =>
        match Compound.count_tokens collat self.ctoken_rate with
        | .error e => .error e
        | .ok maxBorrow =>
          match u128_add assets.borrowed_amount amount with
          | .error e => .error e
          | .ok need =>
            if maxBorrow < need then .error .InsufficientCollateral
            else if t1 = false then .error .TransferFailed
            else
              match assets.add_borrow amount self.borrow_rate with
              | .error e => .error e
              | .ok a' =>
                .ok { self with
                      user_assets := updateA self.user_assets msg_source a' }

/-- `Compound::refund_tokens` (src lines 96–129): positivity check, Position
lookup, the debt assertion `get_borrow_amount() >= amount`, the transfer in
(`t1`), then `borrowed_amount -= amount` and the offset update. -/
def Compound.refund_tokens (self : Compound) (msg_source amount : Nat)
    (t1 : Bool) : Except CErr Compound :=
  if amount = 0 then .error .InvalidAmount
  else
    match lookupA self.user_assets msg_source with
    | none => .error .NoPosition
    | some assets =>
      if assets.get_borrow_amount < amount then .error .RefundExceedsDebt
      else if t1 = false then .error .TransferFailed
      else
        match u128_sub assets.borrowed_amount amount with
        | .error e => .error e
        | .ok b =>
          .ok { self with
                user_assets := updateA self.user_assets msg_source
                  { assets with
                    borrowed_amount := b
                    borrow_offset := assets.borrow_offset - (amount : Int) } }

/-- `Compound::withdraw_tokens` (src lines 131–184): Position lookup, then the
balance assertion exactly as written in the source, namely
`assert!(count_tokens(get_lent_amount(), ctoken_rate) < amount)` — the
assertion PASSES (and the withdrawal proceeds) only when the lent balance in
base units is strictly BELOW the requested amount, and panics
(`WithdrawExceedsBalance` site) otherwise; then the post-withdraw collateral
check on `get_lent_amount() - amount` (plain `u128` subtraction), the ctoken
transfer in (`t1`, whose argument `count_ctokens(amount, ctoken_rate)` is
computed first), the base transfer out (`t2`), then
`lent_amount -= amount` and the offset update. -/
def Compound.withdraw_tokens (self : Compound) (msg_source amount : Nat)
    (t1 t2 : Bool) : Except CErr Compound :=
  match lookupA self.user_assets msg_source with
  | none => .error .NoPosition
  | some assets =>
    match Compound.count_tokens assets.get_lent_amount self.ctoken_rate with
    | .error e => .error e
    | .ok lent_base =>
      if amount ≤ lent_base then .error .WithdrawExceedsBalance
      else
        match u128_sub assets.get_lent_amount amount with
        | .error e => .error e
        | .ok rem =>
          match safe_mul rem self.collateral_factor with
          | .error e => .error e
          | .ok collat =>
            match Compound.count_tokens collat self.ctoken_rate with
            | .error e => .error e
            | .ok maxBorrow =>
              if maxBorrow < assets.get_borrow_amount then
                .error .InsufficientCollateral
              else
                match Compound.count_ctokens amount self.ctoken_rate with
                | .error e => .error e
                | .ok _ctokens_arg =>
                  if t1 = false then .error .TransferFailed
                  else if t2 = false then .error .TransferFailed
                  else
                    match u128_sub assets.lent_amount amount with
                    | .error e => .error e
                    | .ok l =>
                      .ok { self with
                            user_assets := updateA self.user_assets msg_source
                              { assets with
                                lent_amount := l
                                lend_offset := assets.lend_offset - (amount : Int) } }

/-- States reachable from a freshly initialized contract by successful
actions.  `init` (src lines 209–230) validates non-zero addresses and
positive `interest_rate`, `collateral_factor` and `borrow_rate` (the source
does not validate `ctoken_rate`) and starts with an empty `user_assets`
table; each further constructor is one successful handler run. -/
inductive Reachable : Compound → Prop where
  | init (token_address ctoken_address interest_rate collateral_factor
      borrow_rate ctoken_rate init_time : Nat)
      (h1 : token_address ≠ 0) (h2 : ctoken_address ≠ 0)
      (h3 : 0 < interest_rate) (h4 : 0 < collateral_factor)
      (h5 : 0 < borrow_rate) :
      Reachable { token_address := token_address, ctoken_address := ctoken_address,
                  interest_rate := interest_rate,
                  collateral_factor := collateral_factor,
                  borrow_rate := borrow_rate, ctoken_rate := ctoken_rate,
                  user_assets := [], init_time := init_time }
  | lend {st st' : Compound} {src amt : Nat} {t1 t2 : Bool} :
      Reachable st → st.lend_tokens src amt t1 t2 = .ok st' → Reachable st'
  | borrow {st st' : Compound} {src amt : Nat} {t1 : Bool} :
      Reachable st → st.borrow_tokens src amt t1 = .ok st' → Reachable st'
  | refund {st st' : Compound} {src amt : Nat} {t1 : Bool} :
      Reachable st → st.refund_tokens src amt t1 = .ok st' → Reachable st'
  | withdraw {st st' : Compound} {src amt : Nat} {t1 t2 : Bool} :
      Reachable st → st.withdraw_tokens src amt t1 t2 = .ok st' → Reachable st'

/-- Decidable equality of handler results, so concrete runs can be checked by
`decide`. -/
instance {ε α : Type} [DecidableEq ε] [DecidableEq α] : DecidableEq (Except ε α)
  | .error e, .error e' =>
    if h : e = e' then .isTrue (by rw [h]) else
      .isFalse (fun hc => h (Except.error.inj hc))
  | .error _, .ok _ => .isFalse (fun hc => Except.noConfusion hc)
  | .ok _, .error _ => .isFalse (fun hc => Except.noConfusion hc)
  | .ok a, .ok a' =>
    if h : a = a' then .isTrue (by rw [h]) else
      .isFalse (fun hc => h (Except.ok.inj hc))

/-- The solvency invariant of the spec (I3), read over mathematical naturals
with truncating division: every recorded Position satisfies
`lent_amount * collateral_factor / ctoken_rate ≥ borrowed_amount`
(when `safe_mul` / `safe_div` succeed they return exactly these values, see
`safe_mul_ok` / `safe_div_ok`). -/
def solvent (st : Compound) : Prop :=
  ∀ acct a, lookupA st.user_assets acct = some a →
    a.borrowed_amount ≤ a.lent_amount * st.collateral_factor / st.ctoken_rate

/-- A freshly initialized example contract: all rates and the collateral
factor are 1, no Positions. -/
def exSt0 : Compound :=
  { token_address := 1, ctoken_address := 2, interest_rate := 1,
    collateral_factor := 1, borrow_rate := 1, ctoken_rate := 1,
    user_assets := [], init_time := 0 }

/-- The Position after `lend_tokens 2` on `exSt0`. -/
def exA1 : Assets :=
  { lent_amount := 2, lend_offset := 2, borrowed_amount := 0, borrow_offset := 0 }

/-- The Position after additionally borrowing 1. -/
def exA2 : Assets :=
  { lent_amount := 2, lend_offset := 2, borrowed_amount := 1, borrow_offset := 1 }

/-- `exSt0` after account 0 lends 2. -/
def exSt1 : Compound := { exSt0 with user_assets := [(0, exA1)] }

/-- `exSt1` after account 0 borrows 1. -/
def exSt2 : Compound := { exSt0 with user_assets := [(0, exA2)] }

/-- A Position with lent principal 4 and debt 2 (reachable by lending 4 and
borrowing 2 at unit rates). -/
def cxA : Assets :=
  { lent_amount := 4, lend_offset := 4, borrowed_amount := 2, borrow_offset := 2 }

/-- Contract state holding `cxA` for account 0. -/
def cxSt : Compound := { exSt0 with user_assets := [(0, cxA)] }

/-- A Position with lent principal 100 (in ctokens; 100 base units at the
unit exchange rate) and no debt. -/
def wA : Assets :=
  { lent_amount := 100, lend_offset := 100, borrowed_amount := 0, borrow_offset := 0 }

/-- Contract state holding `wA` for account 0. -/
def wSt : Compound := { exSt0 with user_assets := [(0, wA)] }

/-- The Position created by `lend_tokens 10` on `exSt0`. -/
def rtA : Assets :=
  { lent_amount := 10, lend_offset := 10, borrowed_amount := 0, borrow_offset := 0 }

/-- `exSt0` after account 0 lends 10. -/
def rtSt : Compound := { exSt0 with user_assets := [(0, rtA)] }

/-- Looking up the key just written returns the written value. -/
theorem lookupA_updateA_self (l : List (Nat × Assets)) (k : Nat) (v : Assets) :
    lookupA (updateA l k v) k = some v := by
  induction l with
  | nil => simp [updateA, lookupA]
  | cons p rest ih =>
    obtain ⟨k1, w⟩ := p
    by_cases hk : k = k1
    · subst hk; simp [updateA, lookupA]
    · simp [updateA, lookupA, hk, ih]

/-- Writing one key leaves lookups of other keys unchanged. -/
theorem lookupA_updateA_ne (l : List (Nat × Assets)) {k k' : Nat} (v : Assets)
    (h : k' ≠ k) : lookupA (updateA l k v) k' = lookupA l k' := by
  induction l with
  | nil => simp [updateA, lookupA, h]
  | cons p rest ih =>
    obtain ⟨k1, w⟩ := p
    by_cases hk : k = k1
    · subst hk; simp [updateA, lookupA, h]
    · by_cases hk' : k' = k1
      · subst hk'; simp [updateA, lookupA, hk]
      · simp [updateA, lookupA, hk, hk', ih]

/-- Inversion for a successful `safe_mul`. -/
theorem safe_mul_ok {a b v : Nat} (h : safe_mul a b = .ok v) :
    v = a * b ∧ a * b < U128 := by
  unfold safe_mul at h
  split at h
  · exact ⟨(Except.ok.inj h).symm, by assumption⟩
  · exact Except.noConfusion h

/-- Inversion for a successful `safe_div`. -/
theorem safe_div_ok {a b v : Nat} (h : safe_div a b = .ok v) :
    b ≠ 0 ∧ v = a / b := by
  unfold safe_div at h
  split at h
  · exact Except.noConfusion h
  · exact ⟨by assumption, (Except.ok.inj h).symm⟩

/-- Inversion for a successful unchecked `u128` addition. -/
theorem u128_add_ok {a b v : Nat} (h : u128_add a b = .ok v) :
    v = a + b ∧ a + b < U128 := by
  unfold u128_add at h
  split at h
  · exact ⟨(Except.ok.inj h).symm, by assumption⟩
  · exact Except.noConfusion h

/-- Inversion for a successful unchecked `u128` subtraction. -/
theorem u128_sub_ok {a b v : Nat} (h : u128_sub a b = .ok v) :
    b ≤ a ∧ v = a - b := by
  unfold u128_sub at h
  split at h
  · exact ⟨by assumption, (Except.ok.inj h).symm⟩
  · exact Except.noConfusion h

/-- Inversion for a successful `add_lend`: debt untouched, principal grows. -/
theorem add_lend_ok {a : Assets} {c ir : Nat} {a' : Assets}
    (h : a.add_lend c ir = .ok a') :
    a'.borrowed_amount = a.borrowed_amount ∧ a'.lent_amount = a.lent_amount + c := by
  unfold Assets.add_lend at h
  split at h
  next e heq => exact Except.noConfusion h
  next l heq =>
    obtain ⟨hl, _⟩ := u128_add_ok heq
    cases Except.ok.inj h
    exact ⟨rfl, hl⟩

/-- Inversion for a successful `add_borrow`: principal untouched, debt grows. -/
theorem add_borrow_ok {a : Assets} {amt br : Nat} {a' : Assets}
    (h : a.add_borrow amt br = .ok a') :
    a'.lent_amount = a.lent_amount ∧ a'.borrowed_amount = a.borrowed_amount + amt := by
  unfold Assets.add_borrow at h
  split at h
  next e heq => exact Except.noConfusion h
  next b heq =>
    obtain ⟨hb, _⟩ := u128_add_ok heq
    cases Except.ok.inj h
    exact ⟨rfl, hb⟩

/-- A successful `lend_tokens` preserves solvency: the touched Position keeps
its debt and can only grow its lent principal. -/
theorem lend_preserves_solvent {st st' : Compound} {src amt : Nat} {t1 t2 : Bool}
    (h : st.lend_tokens src amt t1 t2 = .ok st') (hs : solvent st) : solvent st' := by
  unfold Compound.lend_tokens at h
  split at h
  · exact Except.noConfusion h
  split at h
  · exact Except.noConfusion h
  split at h
  next e heq => exact Except.noConfusion h
  next c heq =>
    split at h
    · exact Except.noConfusion h
    split at h
    next assets hlook =>
      split at h
      next e heq2 => exact Except.noConfusion h
      next a' heq2 =>
        cases Except.ok.inj h
        intro acct a ha
        obtain ⟨hb, hl⟩ := add_lend_ok heq2
        show a.borrowed_amount ≤ a.lent_amount * st.collateral_factor / st.ctoken_rate
        by_cases hacct : acct = src
        · subst hacct
          rw [show ({ st with user_assets := updateA st.user_assets acct a' } :
                Compound).user_assets = updateA st.user_assets acct a' from rfl,
              lookupA_updateA_self] at ha
          cases Option.some.inj ha
          calc a'.borrowed_amount = assets.borrowed_amount := hb
            _ ≤ assets.lent_amount * st.collateral_factor / st.ctoken_rate :=
                hs acct assets hlook
            _ ≤ a'.lent_amount * st.collateral_factor / st.ctoken_rate := by
                apply Nat.div_le_div_right
                apply Nat.mul_le_mul_right
                rw [hl]; exact Nat.le_add_right _ _
        · rw [show ({ st with user_assets := updateA st.user_assets src a' } :
                Compound).user_assets = updateA st.user_assets src a' from rfl,
              lookupA_updateA_ne _ _ hacct] at ha
          exact hs acct a ha
    next hlook =>
      cases Except.ok.inj h
      intro acct a ha
      show a.borrowed_amount ≤ a.lent_amount * st.collateral_factor / st.ctoken_rate
      by_cases hacct : acct = src
      · subst hacct
        rw [show ({ st with
              user_assets := updateA st.user_assets acct (Assets.new c st.interest_rate) } :
              Compound).user_assets =
              updateA st.user_assets acct (Assets.new c st.interest_rate) from rfl,
            lookupA_updateA_self] at ha
        cases Option.some.inj ha
        exact Nat.zero_le _
      · rw [show ({ st with
              user_assets := updateA st.user_assets src (Assets.new c st.interest_rate) } :
              Compound).user_assets =
              updateA st.user_assets src (Assets.new c st.interest_rate) from rfl,
            lookupA_updateA_ne _ _ hacct] at ha
        exact hs acct a ha

/-- A successful `borrow_tokens` preserves solvency: the collateral gate
admits exactly debts within `lent * collateral_factor / ctoken_rate`. -/
theorem borrow_preserves_solvent {st st' : Compound} {src amt : Nat} {t1 : Bool}
    (h : st.borrow_tokens src amt t1 = .ok st') (hs : solvent st) : solvent st' := by
  unfold Compound.borrow_tokens at h
  split at h
  · exact Except.noConfusion h
  split at h
  next hlook => exact Except.noConfusion h
  next assets hlook =>
    split at h
    next e heqm => exact Except.noConfusion h
    next collat heqm =>
      split at h
      next e heqd => exact Except.noConfusion h
      next maxB heqd =>
        split at h
        next e heqa => exact Except.noConfusion h
        next need heqa =>
          split at h
          · exact Except.noConfusion h
          next hg =>
            split at h
            · exact Except.noConfusion h
            split at h
            next e heqb => exact Except.noConfusion h
            next a' heqb =>
              cases Except.ok.inj h
              intro acct a ha
              show a.borrowed_amount ≤
                a.lent_amount * st.collateral_factor / st.ctoken_rate
              by_cases hacct : acct = src
              · subst hacct
                rw [show ({ st with user_assets := updateA st.user_assets acct a' } :
                      Compound).user_assets = updateA st.user_assets acct a' from rfl,
                    lookupA_updateA_self] at ha
                cases Option.some.inj ha
                obtain ⟨hmv, _⟩ := safe_mul_ok heqm
                unfold Compound.count_tokens at heqd
                obtain ⟨_, hdv⟩ := safe_div_ok heqd
                obtain ⟨hav, _⟩ := u128_add_ok heqa
                obtain ⟨hbl, hbb⟩ := add_borrow_ok heqb
                rw [hbl, hbb]
                calc assets.borrowed_amount + amt = need := hav.symm
                  _ ≤ maxB := Nat.le_of_not_lt hg
                  _ = collat / st.ctoken_rate := hdv
                  _ = assets.lent_amount * st.collateral_factor / st.ctoken_rate := by
                      rw [hmv]
              · rw [show ({ st with user_assets := updateA st.user_assets src a' } :
                      Compound).user_assets = updateA st.user_assets src a' from rfl,
                    lookupA_updateA_ne _ _ hacct] at ha
                exact hs acct a ha

/-- A successful `refund_tokens` preserves solvency: the debt only shrinks and
the lent principal is untouched. -/
theorem refund_preserves_solvent {st st' : Compound} {src amt : Nat} {t1 : Bool}
    (h : st.refund_tokens src amt t1 = .ok st') (hs : solvent st) : solvent st' := by
  unfold Compound.refund_tokens at h
  split at h
  · exact Except.noConfusion h
  split at h
  next hlook => exact Except.noConfusion h
  next assets hlook =>
    split at h
    · exact Except.noConfusion h
    next hdebt =>
      split at h
      · exact Except.noConfusion h
      split at h
      next e heqs => exact Except.noConfusion h
      next b heqs =>
        cases Except.ok.inj h
        intro acct a ha
        show a.borrowed_amount ≤ a.lent_amount * st.collateral_factor / st.ctoken_rate
        by_cases hacct : acct = src
        · subst hacct
          rw [lookupA_updateA_self] at ha
          cases Option.some.inj ha
          obtain ⟨_, hbv⟩ := u128_sub_ok heqs
          show b ≤ assets.lent_amount * st.collateral_factor / st.ctoken_rate
          calc b = assets.borrowed_amount - amt := hbv
            _ ≤ assets.borrowed_amount := Nat.sub_le _ _
            _ ≤ assets.lent_amount * st.collateral_factor / st.ctoken_rate :=
                hs acct assets hlook
        · rw [lookupA_updateA_ne _ _ hacct] at ha
          exact hs acct a ha

/-- A successful `withdraw_tokens` preserves solvency: the post-withdraw
collateral check bounds the (unchanged) debt by the reduced principal. -/
theorem withdraw_preserves_solvent {st st' : Compound} {src amt : Nat} {t1 t2 : Bool}
    (h : st.withdraw_tokens src amt t1 t2 = .ok st') (hs : solvent st) : solvent st' := by
  unfold Compound.withdraw_tokens at h
  split at h
  next hlook => exact Except.noConfusion h
  next assets hlook =>
    split at h
    next e heqlb => exact Except.noConfusion h
    next lent_base heqlb =>
      split at h
      · exact Except.noConfusion h
      next hbal =>
        split at h
        next e heqr => exact Except.noConfusion h
        next rem heqr =>
          split at h
          next e heqm => exact Except.noConfusion h
          next collat heqm =>
            split at h
            next e heqd => exact Except.noConfusion h
            next maxB heqd =>
              split at h
              · exact Except.noConfusion h
              next hg =>
                split at h
                next e heqc => exact Except.noConfusion h
                next carg heqc =>
                  split at h
                  · exact Except.noConfusion h
                  split at h
                  · exact Except.noConfusion h
                  split at h
                  next e heql => exact Except.noConfusion h
                  next l heql =>
                    cases Except.ok.inj h
                    intro acct a ha
                    show a.borrowed_amount ≤
                      a.lent_amount * st.collateral_factor / st.ctoken_rate
                    by_cases hacct : acct = src
                    · subst hacct
                      rw [lookupA_updateA_self] at ha
                      cases Option.some.inj ha
                      obtain ⟨_, hrv⟩ := u128_sub_ok heqr
                      obtain ⟨hmv, _⟩ := safe_mul_ok heqm
                      unfold Compound.count_tokens at heqd
                      obtain ⟨_, hdv⟩ := safe_div_ok heqd
                      obtain ⟨_, hlv⟩ := u128_sub_ok heql
                      show assets.borrowed_amount ≤
                        l * st.collateral_factor / st.ctoken_rate
                      calc assets.borrowed_amount
                          = assets.get_borrow_amount := rfl
                        _ ≤ maxB := Nat.le_of_not_lt hg
                        _ = collat / st.ctoken_rate := hdv
                        _ = rem * st.collateral_factor / st.ctoken_rate := by rw [hmv]
                        _ = l * st.collateral_factor / st.ctoken_rate := by
                            rw [hrv, hlv]
                            rfl
                    · rw [lookupA_updateA_ne _ _ hacct] at ha
                      exact hs acct a ha

/-- Every reachable state is solvent (induction over the action sequence). -/
theorem reachable_solvent {st : Compound} (h : Reachable st) : solvent st := by
  induction h with
  | init _ _ _ _ _ _ _ _ _ _ _ _ =>
    intro acct a ha
    exact absurd ha (by simp [lookupA])
  | lend _ hstep ih => exact lend_preserves_solvent hstep ih
  | borrow _ hstep ih => exact borrow_preserves_solvent hstep ih
  | refund _ hstep ih => exact refund_preserves_solvent hstep ih
  | withdraw _ hstep ih => exact withdraw_preserves_solvent hstep ih

/-- Claim C1: solvency invariant — in every state reachable by a sequence of
successful actions, every account's Position satisfies
`countTokens(lentAmount * collateralFactor, exchangeRate) ≥ borrowedAmount`,
stated over mathematical naturals with truncating division (when `safe_mul` /
`safe_div` succeed they return exactly these values, see `safe_mul_ok` /
`safe_div_ok`); in particular the bound holds immediately after every
successful Borrow or Withdraw that touches the Position. -/
theorem solvency_invariant {st : Compound} (h : Reachable st) {acct : Nat}
    {a : Assets} (ha : lookupA st.user_assets acct = some a) :
    a.borrowed_amount ≤ a.lent_amount * st.collateral_factor / st.ctoken_rate :=
  reachable_solvent h acct a ha

/-- Witness for `solvency_invariant`: the concrete reachable state `exSt2`
(lend 2, borrow 1 at unit rates) satisfies the bound at account 0. -/
theorem solvency_invariant_witness :
    lookupA exSt2.user_assets 0 = some exA2 ∧
    exA2.borrowed_amount ≤
      exA2.lent_amount * exSt2.collateral_factor / exSt2.ctoken_rate := by
  have hreach : Reachable exSt2 :=
    Reachable.borrow
      (Reachable.lend
        (Reachable.init 1 2 1 1 1 1 0 (by decide) (by decide) (by decide)
          (by decide) (by decide) : Reachable exSt0)
        (rfl : exSt0.lend_tokens 0 2 true true = Except.ok exSt1))
      (rfl : exSt1.borrow_tokens 0 1 true = Except.ok exSt2)
  exact ⟨rfl, @solvency_invariant exSt2 hreach 0 exA2 rfl⟩

/-- Claim C2 (code bug): the balance assertion of `withdraw_tokens` is
inverted. On a Position worth 100 base units, withdrawing 50 — well within
the balance — is rejected at the `WithdrawExceedsBalance` panic site, while
withdrawing 150 — exceeding the balance — passes that assertion and fails
only later, in the unchecked collateral subtraction. -/
theorem withdraw_balance_check_inverted :
    wSt.withdraw_tokens 0 50 true true = .error .WithdrawExceedsBalance ∧
    wSt.withdraw_tokens 0 150 true true = .error .UncheckedOverflow := ⟨rfl, rfl⟩

/-- Claim C3 (code bug): a Lend immediately followed by a Withdraw of the
same amount does not succeed: at unit rates, lending 10 creates a Position
worth 10 base units, and the immediate `withdraw_tokens 10` is rejected by
the inverted balance assertion instead of returning the funds. -/
theorem lend_withdraw_roundtrip_rejected :
    exSt0.lend_tokens 0 10 true true = .ok rtSt ∧
    rtSt.withdraw_tokens 0 10 true true = .error .WithdrawExceedsBalance :=
  ⟨rfl, rfl⟩

/-- Claim C5: non-positive amounts are rejected up front — `lend_tokens 0`,
`borrow_tokens 0` and `refund_tokens 0` fail with `InvalidAmount` in every
state, before any transfer or Position access, so no state is changed. -/
theorem zero_amount_rejected (st : Compound) (src : Nat) (t1 t2 : Bool) :
    st.lend_tokens src 0 t1 t2 = .error .InvalidAmount ∧
    st.borrow_tokens src 0 t1 = .error .InvalidAmount ∧
    st.refund_tokens src 0 t1 = .error .InvalidAmount := ⟨rfl, rfl, rfl⟩

/-- Claim C9: the collateral comparison of `borrow_tokens` computes
`borrowed_amount + amount` with plain (unchecked) `u128` addition: in the
reachable state `exSt2` (debt 1), requesting `2^128 - 1` makes the sum leave
the `u128` range, so the check itself overflows instead of returning
`InsufficientCollateral` or `ArithmeticOverflow`. -/
theorem borrow_check_addition_overflow :
    Reachable exSt2 ∧
    exSt2.borrow_tokens 0 (U128 - 1) true = .error .UncheckedOverflow ∧
    Compound.borrow_tokens exSt2 0 (U128 - 1) true ≠ .error .InsufficientCollateral ∧
    Compound.borrow_tokens exSt2 0 (U128 - 1) true ≠ .error .ArithmeticOverflow := by
  refine ⟨?_, rfl, by decide, by decide⟩
  exact Reachable.borrow
    (Reachable.lend
      (Reachable.init 1 2 1 1 1 1 0 (by decide) (by decide) (by decide)
        (by decide) (by decide) : Reachable exSt0)
      (rfl : exSt0.lend_tokens 0 2 true true = Except.ok exSt1))
    (rfl : exSt1.borrow_tokens 0 1 true = Except.ok exSt2)

/-- Claim C4 counterexample: in `cxSt` (Position with lent 4, debt 2 at unit
rates, so `maxBorrow = 4`), `Borrow(2^128 - 2)` makes
`borrowedAmount + amount` mathematically exceed `maxBorrow`, yet the call
does not fail with `InsufficientCollateral`: the unchecked `u128` sum leaves
the integer range first. -/
theorem borrow_gate_overflow_cex :
    cxSt.borrow_tokens 0 (U128 - 2) true = .error .UncheckedOverflow ∧
    Compound.borrow_tokens cxSt 0 (U128 - 2) true ≠ .error .InsufficientCollateral :=
  ⟨rfl, by decide⟩

/-- Claim C4 (amended): the borrow collateral gate — for an account with a
Position, with `maxBorrow = countTokens(safe_mul(lent_amount,
collateral_factor), ctoken_rate)` defined and the sum
`borrowed_amount + amount` inside the `u128` range, the call fails with
`InsufficientCollateral` exactly when `maxBorrow < borrowedAmount + amount`,
independently of (hence before) the transfer outcome; when the check passes
and the transfer succeeds, `borrowedAmount` increases by `amount`. -/
theorem borrow_collateral_gate {st : Compound} {src amt : Nat} {a : Assets}
    {collat maxBorrow : Nat}
    (hpos : 0 < amt)
    (hlook : lookupA st.user_assets src = some a)
    (hmul : safe_mul a.lent_amount st.collateral_factor = .ok collat)
    (hdiv : Compound.count_tokens collat st.ctoken_rate = .ok maxBorrow)
    (hrange : a.borrowed_amount + amt < U128) :
    (maxBorrow < a.borrowed_amount + amt →
      ∀ t1 : Bool, st.borrow_tokens src amt t1 = .error .InsufficientCollateral) ∧
    (¬ maxBorrow < a.borrowed_amount + amt →
      st.borrow_tokens src amt true =
        .ok { st with user_assets := updateA st.user_assets src ({ a with borrowed_amount := a.borrowed_amount + amt, borrow_offset := a.borrow_offset + (amt : Int) }) }) := by
  have h0 : ¬ (amt = 0) := by omega
  have hadd : u128_add a.borrowed_amount amt = .ok (a.borrowed_amount + amt) := by
    unfold u128_add; rw [if_pos hrange]
  have haddb : a.add_borrow amt st.borrow_rate =
      .ok ({ a with borrowed_amount := a.borrowed_amount + amt, borrow_offset := a.borrow_offset + (amt : Int) }) := by
    unfold Assets.add_borrow; rw [hadd]
  constructor
  · intro hlt t1
    unfold Compound.borrow_tokens
    simp [h0, hlook, hmul, hdiv, hadd, hlt]
  · intro hnlt
    unfold Compound.borrow_tokens
    simp [h0, hlook, hmul, hdiv, hadd, hnlt, haddb]

/-- Witness for `borrow_collateral_gate`: from `exSt1` (lent 2, no debt,
unit rates, `maxBorrow = 2`), borrowing 1 passes the gate and records the
debt, producing `exSt2`. -/
theorem borrow_collateral_gate_witness :
    exSt1.borrow_tokens 0 1 true = .ok exSt2 :=
  (@borrow_collateral_gate exSt1 0 1 exA1 2 2 (by decide) rfl rfl rfl
    (by decide)).2 (by decide)

/-- Every successful `lend_tokens` run passed both its transfers. -/
theorem lend_transfers_of_ok {st st' : Compound} {src amt : Nat} {t1 t2 : Bool}
    (h : st.lend_tokens src amt t1 t2 = .ok st') : t1 = true ∧ t2 = true := by
  unfold Compound.lend_tokens at h
  split at h
  · exact Except.noConfusion h
  split at h
  next ht1 => exact Except.noConfusion h
  next ht1 =>
    split at h
    next e heq => exact Except.noConfusion h
    next c heq =>
      split at h
      next ht2 => exact Except.noConfusion h
      next ht2 => exact ⟨by cases t1 <;> simp_all, by cases t2 <;> simp_all⟩

/-- Every successful `borrow_tokens` run passed its transfer. -/
theorem borrow_transfers_of_ok {st st' : Compound} {src amt : Nat} {t1 : Bool}
    (h : st.borrow_tokens src amt t1 = .ok st') : t1 = true := by
  unfold Compound.borrow_tokens at h
  split at h
  · exact Except.noConfusion h
  split at h
  next hlook => exact Except.noConfusion h
  next assets hlook =>
    split at h
    next e heq => exact Except.noConfusion h
    next collat heq =>
      split at h
      next e heq2 => exact Except.noConfusion h
      next maxB heq2 =>
        split at h
        next e heq3 => exact Except.noConfusion h
        next need heq3 =>
          split at h
          · exact Except.noConfusion h
          next hg =>
            split at h
            next ht1 => exact Except.noConfusion h
            next ht1 => cases t1 <;> simp_all

/-- Every successful `refund_tokens` run passed its transfer. -/
theorem refund_transfers_of_ok {st st' : Compound} {src amt : Nat} {t1 : Bool}
    (h : st.refund_tokens src amt t1 = .ok st') : t1 = true := by
  unfold Compound.refund_tokens at h
  split at h
  · exact Except.noConfusion h
  split at h
  next hlook => exact Except.noConfusion h
  next assets hlook =>
    split at h
    · exact Except.noConfusion h
    next hdebt =>
      split at h
      next ht1 => exact Except.noConfusion h
      next ht1 => cases t1 <;> simp_all

/-- Every successful `withdraw_tokens` run passed both its transfers. -/
theorem withdraw_transfers_of_ok {st st' : Compound} {src amt : Nat} {t1 t2 : Bool}
    (h : st.withdraw_tokens src amt t1 t2 = .ok st') : t1 = true ∧ t2 = true := by
  unfold Compound.withdraw_tokens at h
  split at h
  next hlook => exact Except.noConfusion h
  next assets hlook =>
    split at h
    next e heq => exact Except.noConfusion h
    next lent_base heq =>
      split at h
      · exact Except.noConfusion h
      next hbal =>
        split at h
        next e heq2 => exact Except.noConfusion h
        next rem heq2 =>
          split at h
          next e heq3 => exact Except.noConfusion h
          next collat heq3 =>
            split at h
            next e heq4 => exact Except.noConfusion h
            next maxB heq4 =>
              split at h
              · exact Except.noConfusion h
              next hg =>
                split at h
                next e heq5 => exact Except.noConfusion h
                next carg heq5 =>
                  split at h
                  next ht1 => exact Except.noConfusion h
                  next ht1 =>
                    split at h
                    next ht2 => exact Except.noConfusion h
                    next ht2 =>
                      exact ⟨by cases t1 <;> simp_all, by cases t2 <;> simp_all⟩

/-- Claim C6: atomicity on transfer failure — whenever any transfer an action
performs resolves to non-success, the action returns an error, and since a
new state is produced only on `ok`, no Position mutation is committed; in
particular a Lend commits its Position update only when both of its
transfers succeeded. -/
theorem transfer_failure_atomicity (st : Compound) (src amt : Nat) (t1 t2 : Bool) :
    ((t1 = false ∨ t2 = false) →
      (∃ e, st.lend_tokens src amt t1 t2 = .error e) ∧
      (∃ e, st.withdraw_tokens src amt t1 t2 = .error e)) ∧
    (t1 = false →
      (∃ e, st.borrow_tokens src amt t1 = .error e) ∧
      (∃ e, st.refund_tokens src amt t1 = .error e)) := by
  constructor
  · intro hor
    constructor
    · rcases hres : st.lend_tokens src amt t1 t2 with e | st'
      · exact ⟨e, rfl⟩
      · obtain ⟨ht1, ht2⟩ := lend_transfers_of_ok hres
        cases hor with
        | inl hf => rw [hf] at ht1; exact Bool.noConfusion ht1
        | inr hf => rw [hf] at ht2; exact Bool.noConfusion ht2
    · rcases hres : st.withdraw_tokens src amt t1 t2 with e | st'
      · exact ⟨e, rfl⟩
      · obtain ⟨ht1, ht2⟩ := withdraw_transfers_of_ok hres
        cases hor with
        | inl hf => rw [hf] at ht1; exact Bool.noConfusion ht1
        | inr hf => rw [hf] at ht2; exact Bool.noConfusion ht2
  · intro hf
    constructor
    · rcases hres : st.borrow_tokens src amt t1 with e | st'
      · exact ⟨e, rfl⟩
      · rw [hf] at hres
        exact Bool.noConfusion (borrow_transfers_of_ok hres)
    · rcases hres : st.refund_tokens src amt t1 with e | st'
      · exact ⟨e, rfl⟩
      · rw [hf] at hres
        exact Bool.noConfusion (refund_transfers_of_ok hres)

/-- Witness for `transfer_failure_atomicity`: with the first transfer failing,
a concrete Lend and Withdraw on `wSt` return errors. -/
theorem transfer_failure_atomicity_witness :
    (∃ e, wSt.lend_tokens 0 5 false true = .error e) ∧
    (∃ e, wSt.withdraw_tokens 0 5 false true = .error e) :=
  (transfer_failure_atomicity wSt 0 5 false true).1 (Or.inl rfl)

/-- Claim C7 counterexample: on an account with no Position, `Borrow(0)` and
`Refund(0)` fail with `InvalidAmount` (the positivity assertion runs first),
not with `NoPosition` as the claim states for every amount. -/
theorem no_position_zero_amount_cex :
    exSt0.borrow_tokens 0 0 true = .error .InvalidAmount ∧
    Compound.borrow_tokens exSt0 0 0 true ≠ .error .NoPosition ∧
    exSt0.refund_tokens 0 0 true = .error .InvalidAmount ∧
    Compound.refund_tokens exSt0 0 0 true ≠ .error .NoPosition :=
  ⟨rfl, by decide, rfl, by decide⟩

/-- Claim C7 (amended): operations on an account with no Position fail with
`NoPosition` and leave the state unchanged — for every positive amount for
Borrow and Refund (a zero amount is rejected as `InvalidAmount` first), and
for every amount whatsoever for Withdraw. -/
theorem no_position_failure {st : Compound} {acct amt : Nat}
    (hnone : lookupA st.user_assets acct = none) (hpos : 0 < amt) :
    (∀ t1 : Bool, st.borrow_tokens acct amt t1 = .error .NoPosition) ∧
    (∀ t1 : Bool, st.refund_tokens acct amt t1 = .error .NoPosition) ∧
    (∀ amt2 : Nat, ∀ t1 t2 : Bool,
      st.withdraw_tokens acct amt2 t1 t2 = .error .NoPosition) := by
  have h0 : ¬ (amt = 0) := by omega
  refine ⟨fun t1 => ?_, fun t1 => ?_, fun amt2 t1 t2 => ?_⟩
  · unfold Compound.borrow_tokens
    simp [h0, hnone]
  · unfold Compound.refund_tokens
    simp [h0, hnone]
  · unfold Compound.withdraw_tokens
    simp [hnone]

/-- Witness for `no_position_failure` on the freshly initialized `exSt0`. -/
theorem no_position_failure_witness :
    exSt0.borrow_tokens 0 1 true = .error .NoPosition ∧
    exSt0.refund_tokens 0 1 true = .error .NoPosition ∧
    exSt0.withdraw_tokens 0 0 true true = .error .NoPosition :=
  ⟨(@no_position_failure exSt0 0 1 rfl (by decide)).1 true,
   (@no_position_failure exSt0 0 1 rfl (by decide)).2.1 true,
   (@no_position_failure exSt0 0 1 rfl (by decide)).2.2 0 true true⟩

/-- Claim C8: the conversion helpers are checked — `count_ctokens` returns
exactly `baseAmount * exchangeRate` inside the `u128` range and fails with
`ArithmeticOverflow` when the product leaves it; `count_tokens` returns the
explicit truncating quotient `receiptAmount / exchangeRate` for a non-zero
rate and fails with `DivisionError` on a zero divisor — neither wraps
silently. -/
theorem conversion_helpers_checked (base rate c : Nat) :
    (base * rate < U128 → Compound.count_ctokens base rate = .ok (base * rate)) ∧
    (U128 ≤ base * rate →
      Compound.count_ctokens base rate = .error .ArithmeticOverflow) ∧
    (rate ≠ 0 → Compound.count_tokens c rate = .ok (c / rate)) ∧
    Compound.count_tokens c 0 = .error .DivisionError := by
  refine ⟨fun h => ?_, fun h => ?_, fun h => ?_, ?_⟩
  · unfold Compound.count_ctokens safe_mul; rw [if_pos h]
  · unfold Compound.count_ctokens safe_mul; rw [if_neg (Nat.not_lt.mpr h)]
  · unfold Compound.count_tokens safe_div; rw [if_neg h]
  · rfl

/-- Witness for `conversion_helpers_checked` at concrete amounts and rates. -/
theorem conversion_helpers_checked_witness :
    Compound.count_ctokens 3 5 = .ok 15 ∧
    Compound.count_ctokens (2 ^ 127) 2 = .error .ArithmeticOverflow ∧
    Compound.count_tokens 7 2 = .ok 3 ∧
    Compound.count_tokens 7 0 = .error .DivisionError :=
  ⟨(conversion_helpers_checked 3 5 7).1 (by decide),
   (conversion_helpers_checked (2 ^ 127) 2 7).2.1 (by decide),
   (conversion_helpers_checked 3 2 7).2.2.1 (by decide),
   (conversion_helpers_checked 3 5 7).2.2.2⟩

/-- Claim C10: past the (inverted) balance assertion of `withdraw_tokens`,
whenever `get_lent_amount() < amount`, the unchecked subtraction
`get_lent_amount() - amount` leaves the `u128` range — there is no guard that
`get_lent_amount() ≥ amount` — so the collateral computation is not total on
those states: the call aborts with the unchecked underflow. -/
theorem withdraw_collateral_sub_underflow {st : Compound} {acct amt : Nat}
    {a : Assets} {v : Nat}
    (hlook : lookupA st.user_assets acct = some a)
    (hbal : Compound.count_tokens a.get_lent_amount st.ctoken_rate = .ok v)
    (hpass : v < amt)
    (hlt : a.get_lent_amount < amt) :
    ∀ t1 t2 : Bool, st.withdraw_tokens acct amt t1 t2 = .error .UncheckedOverflow := by
  intro t1 t2
  have hsub : u128_sub a.get_lent_amount amt = .error .UncheckedOverflow := by
    unfold u128_sub; rw [if_neg (Nat.not_le.mpr hlt)]
  unfold Compound.withdraw_tokens
  simp [hlook, hbal, Nat.not_le.mpr hpass, hsub]

/-- Witness for `withdraw_collateral_sub_underflow`: on the Position worth
100, withdrawing 200 passes the inverted assertion and aborts in the
collateral subtraction. -/
theorem withdraw_collateral_sub_underflow_witness :
    wSt.withdraw_tokens 0 200 true true = .error .UncheckedOverflow :=
  @withdraw_collateral_sub_underflow wSt 0 200 wA 100 rfl rfl (by decide)
    (by decide) true true
